import Mathlib

/-!
Shallow embedding of the two programs of this repository:

* `src/New_Better_mining.py` — a gathering-loop controller for a game
  scripting host.  Host API calls (journal searches, timers, pathing,
  inventory) are modelled as explicit inputs (oracles) and explicit
  state; each Lean definition mirrors one Python function.
* `src/led_connection_test.py` — a TCP reachability checker; the
  socket connect call is modelled as an `Except` valued oracle.

Machine integers of the game (coordinates, weights, skill values) are
modelled as `Int`; timestamps and durations as `Nat` milliseconds.
-/

namespace Mining

/-- Cooldown applied to a depleted ore spot: `oreCooldown = 1200000` ms. -/
def oreCooldown : Nat := 1200000

/-- Scan radius for ore spots (`scanRadius = 30`). -/
def scanRadius : Nat := 30

/-- Maximum attempts per spot in `MineSpotUntilDepleted` (`maxAttempts = 20`). -/
def maxAttempts : Nat := 20

/-- Raw-ore item ID (`oreID = 0x19B9`). -/
def oreID : Nat := 0x19B9

/-- Ingot item IDs (`ingotIDs`). -/
def ingotIDs : List Nat := [0x1BF2, 0x1BEF]

/-- Other resource item IDs (`otherResourceIDs`). -/
def otherResourceIDs : List Nat := [0x3192, 0x3193, 0x3194, 0x3195, 0x3196, 0x3197, 0x3198]

/-- The list `[oreID] + ingotIDs + otherResourceIDs` used to tag resource items. -/
def resourceIDs : List Nat := oreID :: (ingotIDs ++ otherResourceIDs)

/-- Static tile IDs eligible for mining (`oreStaticIDs`). -/
def oreStaticIDs : List Nat :=
  [0x053E, 0x053B, 0x0540, 0x0541, 0x0542, 0x0543, 0x0544, 0x0545, 0x0546, 0x0547, 0x0548, 0x0549,
   0x0459, 0x045A, 0x045B, 0x045C,
   0x1771, 0x1772, 0x1773, 0x1774, 0x1775, 0x1776, 0x1777, 0x1778,
   0x1779, 0x177A, 0x177B, 0x177C, 0x177D, 0x177E, 0x177F, 0x1780]

/-- An ore spot, as built by `ScanStatic` (`class OreSpot`). -/
structure OreSpot where
  x : Int
  y : Int
  z : Int
  id : Nat
deriving DecidableEq, Repr

/-- Timer key `'%i,%i' % (x, y)` used for per-spot cooldowns. -/
def coordKey (x y : Int) : String := toString x ++ "," ++ toString y

/-- Mutable script state touched by `MineOnce`: the global `blockCount`
counter and the host `Timer` table.  `timers k = some e` means a timer
named `k` exists and expires at absolute time `e` (ms); `now` is the
current host time, constant during one embedded call. -/
structure MinerState where
  blockCount : Nat
  now : Nat
  timers : String → Option Nat

/-- Host call `Timer.Create(key, dur)`: (re)sets the named timer to expire
`dur` ms from now. -/
def timerCreate (st : MinerState) (key : String) (dur : Nat) : MinerState :=
  { st with timers := fun k => if k = key then some (st.now + dur) else st.timers k }

/-- Host call `Timer.Check(key)`: true while the named timer has not expired. -/
def timerCheck (st : MinerState) (key : String) : Bool :=
  match st.timers key with
  | some e => decide (st.now < e)
  | none => false

/-- Journal snapshot at the moment `MineOnce`'s poll loop exits: one flag
per substring the script searches for after `Journal.Clear()`. -/
structure Journal where
  noMetal : Bool
  loosen : Bool
  wornOut : Bool
  canNotMine : Bool
  noLineOfSight : Bool
  digSome : Bool
  receive : Bool
  haveReceived : Bool
  cantDigRiding : Bool
deriving DecidableEq, Repr

/-- Journal in which no watched text matched (poll loop exits only by timeout). -/
def Journal.empty : Journal :=
  ⟨false, false, false, false, false, false, false, false, false⟩

/-- Host-supplied inputs of a single `MineOnce` call: whether
`EquipPickaxe()` produced a usable tool, the journal snapshot when the poll
loop exits, and whether that exit happened because `Timer.Check('mineTimer')`
turned false with no text matched. -/
structure MineEnv where
  hasPickaxe : Bool
  journal : Journal
  mineTimerExpired : Bool
deriving DecidableEq, Repr

/-- Result of `MineOnce`: `halt` embeds the `Stop` statement on the
no-tool path (the whole script ends); `cont b` is an ordinary return of
the boolean `b`. -/
inductive MineResult where
  | halt : MineResult
  | cont (success : Bool) : MineResult
deriving DecidableEq, Repr

/-- Cooldown creation `Timer.Create('%i,%i' % (oreSpots[0].x, oreSpots[0].y), oreCooldown)`. -/
def mineCooldown (st : MinerState) (spot : OreSpot) : MinerState :=
  timerCreate st (coordKey spot.x spot.y) oreCooldown

/-- One extraction attempt, `MineOnce` (src/New_Better_mining.py lines
413–495): after equipping the tool and issuing the targeted dig, the
outcome chain is evaluated in source order on the journal snapshot, and
the global `blockCount` and the timer table are updated accordingly. -/
def MineOnce (spot : OreSpot) (env : MineEnv) (st : MinerState) :
    MineResult × MinerState :=
  if env.hasPickaxe = false then
    (MineResult.halt, st)
  else
    let j := env.journal
    if j.cantDigRiding then
      (MineResult.cont true, st)
    else if j.noMetal then
      (MineResult.cont false, mineCooldown st spot)
    else if j.wornOut then
      (MineResult.cont true, st)
    else if j.canNotMine || j.noLineOfSight then
      let bc := st.blockCount + 1
      if bc > 3 then
        (MineResult.cont false, mineCooldown { st with blockCount := 0 } spot)
      else
        (MineResult.cont true, { st with blockCount := bc })
    else if j.digSome || j.receive || j.loosen || j.haveReceived then
      (MineResult.cont true, st)
    else if env.mineTimerExpired then
      (MineResult.cont false, mineCooldown st spot)
    else
      (MineResult.cont false, st)

/-- A static tile as returned by `Statics.GetStaticsTileInfo`. -/
structure TileInfo where
  staticID : Nat
  staticZ : Int
deriving DecidableEq, Repr

/-- Inner loops of `ScanStatic` for one map cell: for each tile at the
cell, for each known ore static ID, add a spot when the IDs match and no
cooldown timer keyed by the cell coordinates is running. -/
def cellSpots (tCheck : String → Bool) (tiles : List TileInfo) (x y : Int) :
    List OreSpot :=
  tiles.flatMap (fun tile =>
    oreStaticIDs.filterMap (fun staticid =>
      if staticid = tile.staticID ∧ tCheck (coordKey x y) = false then
        some ⟨x, y, tile.staticZ, staticid⟩
      else none))

/-- Squared Euclidean distance of a spot to the player position, written
with explicit products; the Python sort key is its (monotone) square
root. -/
def dist2 (px py : Int) (s : OreSpot) : Int :=
  (s.x - px) * (s.x - px) + (s.y - py) * (s.y - py)

/-- The sort `sorted(oreSpots, key=lambda spot: sqrt(...))`: a stable
sort whose comparisons agree with comparisons of the squared distance,
since the square root is monotone; any two stable sorts of the same
total preorder coincide, so a structural insertion sort embeds Python's
stable `sorted`. -/
def sortSpots (px py : Int) (spots : List OreSpot) : List OreSpot :=
  spots.insertionSort (fun s t => dist2 px py s ≤ dist2 px py t)

/-- Discovery scan `ScanStatic` (lines 200–221): enumerate the square of
side `2*scanRadius+1` around the player in x-major order, collect
matching non-cooled-down spots, append them to the current global
`oreSpots` list, and sort the result by distance to the player. -/
def ScanStatic (statics : Int → Int → List TileInfo) (tCheck : String → Bool)
    (px py : Int) (oreSpots0 : List OreSpot) : List OreSpot :=
  let minX := px - (scanRadius : Int)
  let minY := py - (scanRadius : Int)
  let newSpots :=
    (List.range (2 * scanRadius + 1)).flatMap (fun i =>
      (List.range (2 * scanRadius + 1)).flatMap (fun j =>
        cellSpots tCheck (statics (minX + i) (minY + j)) (minX + i) (minY + j)))
  sortSpots px py (oreSpots0 ++ newSpots)

/-- The main-loop step `oreSpots.pop(0)` followed by the re-sort of the
remaining candidates by distance to the player's current position
(lines 797–798). -/
def removeVisited (px py : Int) (spots : List OreSpot) : List OreSpot :=
  sortSpots px py spots.tail

/-- Startup skill gate (lines 6–8): the script stops when
`Player.GetRealSkillValue('Mining') < 40`. -/
def skillTooLow (skill : Int) : Bool := decide (skill < 40)

/-- A backpack item as seen by the overweight-drop loop and the beetle
transfer: its graphic ID and its serial. -/
structure Item where
  itemID : Nat
  serial : Nat
deriving DecidableEq, Repr

/-- Observable actions of one `MineSpotUntilDepleted` loop iteration, in
program order. -/
inductive Action where
  | smelt : Action
  | offloadAttempt : Action
  | dropGround (itemID : Nat) : Action
  | moveToOreSpot : Action
  | mineAttempt : Action
deriving DecidableEq, Repr

/-- Host-supplied inputs of one iteration of the `MineSpotUntilDepleted`
loop: the player's weight and maximum weight as read during the
iteration (the failed offload paths move nothing, so one reading per
iteration is faithful), the result of `MoveToBeetle()`, the backpack
contents, and the inputs of the `MineOnce` call. -/
structure LoopIter where
  weight : Int
  maxWeight : Int
  moveToBeetleOk : Bool
  backpack : List Item
  mineEnv : MineEnv
deriving Repr

/-- Outcome of one loop-body execution: `brk` is a `break` out of the
loop, `halted` embeds `Stop` reached inside `MineOnce`, and `next`
carries the `MineOnce` boolean and the updated script state. -/
inductive BodyOut where
  | brk (acts : List Action) : BodyOut
  | halted (acts : List Action) : BodyOut
  | next (success : Bool) (acts : List Action) (st : MinerState) : BodyOut

/-- One body execution of the `while miningSuccess and attempts < maxAttempts`
loop of `MineSpotUntilDepleted` (lines 371–408).  `weightLimit` is the
global `Player.MaxWeight - 400`; the offload block runs when
`Player.Weight >= weightLimit - 40` or every 8th attempt; inside it, a
failed `MoveToBeetle` at critical weight (`>= MaxWeight - 10`) drops the
first resource-tagged backpack item on the ground, triggers the smelter
and breaks; otherwise weight `>= MaxWeight - 20` breaks after a smelter
trigger, and lighter weights return to the spot and mine. -/
def loopBody (smeltActive : Bool) (spot : OreSpot) (it : LoopIter)
    (attempts : Nat) (st : MinerState) : BodyOut :=
  let smeltActs : List Action := if smeltActive then [Action.smelt] else []
  let mineStep : List Action → BodyOut := fun acts0 =>
    match MineOnce spot it.mineEnv st with
    | (MineResult.halt, _) => BodyOut.halted (acts0 ++ [Action.mineAttempt])
    | (MineResult.cont s, st2) => BodyOut.next s (acts0 ++ [Action.mineAttempt]) st2
  let weightLimit := it.maxWeight - 400
  if (decide (weightLimit - 40 ≤ it.weight)
      || (decide (0 < attempts) && decide (attempts % 8 = 0))) then
    if it.moveToBeetleOk = false ∧ it.maxWeight - 10 ≤ it.weight then
      let dropActs : List Action :=
        match it.backpack.find? (fun i => decide (i.itemID ∈ resourceIDs)) with
        | some itm => [Action.dropGround itm.itemID]
        | none => []
      BodyOut.brk (smeltActs ++ [Action.offloadAttempt] ++ dropActs ++ smeltActs)
    else if it.weight < it.maxWeight - 20 then
      mineStep (smeltActs ++ [Action.offloadAttempt, Action.moveToOreSpot])
    else
      BodyOut.brk (smeltActs ++ [Action.offloadAttempt] ++ smeltActs)
  else
    mineStep smeltActs

/-- Result of running the extraction loop to completion: `halted` if
`Stop` was reached, otherwise the final value of `attempts` and the
final script state. -/
inductive RunOutcome where
  | halted : RunOutcome
  | finished (attempts : Nat) (st : MinerState) : RunOutcome

/-- The extraction loop of `MineSpotUntilDepleted`, driven by a list of
per-iteration host inputs; the loop guard is
`miningSuccess and attempts < maxAttempts`, `attempts` is incremented
after each `MineOnce` and reset to 0 on success (so a non-success
`MineOnce` ends the loop through the guard with `attempts + 1`). -/
def mineLoopRun (smeltActive : Bool) (spot : OreSpot) :
    List LoopIter → Nat → MinerState → RunOutcome
  | [], attempts, st => RunOutcome.finished attempts st
  | it :: rest, attempts, st =>
    if attempts < maxAttempts then
      match loopBody smeltActive spot it attempts st with
      | BodyOut.brk _ => RunOutcome.finished attempts st
      | BodyOut.halted _ => RunOutcome.halted
      | BodyOut.next s _ st2 =>
        if s then mineLoopRun smeltActive spot rest 0 st2
        else RunOutcome.finished (attempts + 1) st2
    else RunOutcome.finished attempts st

/-- Final attempts of a loop run (0 when the script halted). -/
def finalAttempts : RunOutcome → Nat
  | RunOutcome.halted => 0
  | RunOutcome.finished a _ => a

/-- An item inside the beetle pack, as summed by `BeetleHasCapacity`
(`Amount`/`Weight` attributes; the Python `or 1` maps a zero attribute
to 1). -/
structure PackItem where
  amount : Int
  weight : Int
deriving DecidableEq, Repr

/-- The beetle's pack container: its `Weight` attribute when the host
exposes one, else its contents to be summed. -/
structure BeetlePack where
  serial : Nat
  weightAttr : Option Int
  contents : List PackItem
deriving DecidableEq, Repr

/-- An entry of a mobile's `Contains` list: its equipment layer and, when
it is the pack (layer 21), the container it denotes. -/
structure BMobileItem where
  layer : Int
  pack : BeetlePack
deriving DecidableEq, Repr

/-- The beetle mobile as seen by the pack-resolution chain shared by
`BeetleHasCapacity` and `TransferItemsToBeetle`: an optional `Backpack`
attribute, an optional `Contains` list, and the `Contains` list of the
item view `Items.FindBySerial(beetle_mobile.Serial)`. -/
structure BeetleMobile where
  backpackAttr : Option BeetlePack
  contains : Option (List BMobileItem)
  itemViewContains : Option (List BMobileItem)
deriving Repr

/-- The three-stage pack lookup at the top of `BeetleHasCapacity`
(lines 566–580) and of `TransferItemsToBeetle` (lines 682–696):
`Backpack` attribute first, then the layer-21 entry of `Contains`, then
the layer-21 entry of the item view's `Contains`. -/
def findBeetlePack (m : BeetleMobile) : Option BeetlePack :=
  match m.backpackAttr with
  | some p => some p
  | none =>
    match (m.contains.getD []).find? (fun it => decide (it.layer = 21)) with
    | some it => some it.pack
    | none =>
      match (m.itemViewContains.getD []).find? (fun it => decide (it.layer = 21)) with
      | some it => some it.pack
      | none => none

/-- Per-item contribution to the summed pack weight
(`float(amt) * float(wt)` kept only when `0 <= w <= 200`); the game's
amounts and weights are integers, so the float product is exact. -/
def itemContribution (it : PackItem) : Int :=
  let amt := if it.amount = 0 then 1 else it.amount
  let wt := if it.weight = 0 then 1 else it.weight
  let w := amt * wt
  if 0 ≤ w ∧ w ≤ 200 then w else 0

/-- Total pack weight used by `BeetleHasCapacity`: the pack's `Weight`
attribute when present, else the sum of item contributions. -/
def packTotalWeight (p : BeetlePack) : Int :=
  match p.weightAttr with
  | some w => w
  | none => (p.contents.map itemContribution).sum

/-- Capacity estimate `BeetleHasCapacity` (lines 564–610): resolve the
pack, clamp an implausible total (> 10000) to 1000, compare the
remaining capacity out of a fixed 400-stone maximum against the required
minimum, allowing small items (required ≤ 10) when between 0 and 100
stones over capacity. -/
def BeetleHasCapacity (m : Option BeetleMobile) (required : Int) : Bool :=
  match m with
  | none => false
  | some mob =>
    match findBeetlePack mob with
    | none => false
    | some p =>
      let tw0 := packTotalWeight p
      let tw := if tw0 > 10000 then 1000 else tw0
      let remaining := 400 - tw
      if remaining < 0 ∧ -100 < remaining then decide (required ≤ 10)
      else decide (required ≤ remaining)

/-- Host-supplied inputs of `TransferItemsToBeetle`: the player's backpack
and, per serial, whether `Items.FindBySerial` still sees the item before
the move and whether it is gone afterwards (move succeeded). -/
structure TransferEnv where
  playerBackpack : List Item
  preExists : Nat → Bool
  moveSucceeds : Nat → Bool

/-- Transfer routine `TransferItemsToBeetle` (lines 677–730): resolve the
pack, collect every resource-tagged backpack item, and issue a move for
each one that still exists; returns whether any move succeeded (or
`true` when there was nothing to transfer), paired with the serials for
which a move was issued.  No capacity check appears on this path. -/
def TransferItemsToBeetle (m : Option BeetleMobile) (env : TransferEnv) :
    Bool × List Nat :=
  match m with
  | none => (false, [])
  | some mob =>
    match findBeetlePack mob with
    | none => (false, [])
    | some _ =>
      let oreItems := env.playerBackpack.filter (fun it => decide (it.itemID ∈ resourceIDs))
      if oreItems.isEmpty then (true, [])
      else
        let issued := (oreItems.filter (fun it => env.preExists it.serial)).map (fun it => it.serial)
        let moveCount := (issued.filter (fun s => env.moveSucceeds s)).length
        (decide (0 < moveCount), issued)

/-- A Python exception as distinguished by `_wrapped_smelter`'s handlers:
a `TypeError` (with or without `'List[Int32]'` in its text) or any other
`Exception`. -/
inductive PyExc where
  | typeError (hasListInt32 : Bool) : PyExc
  | otherError : PyExc
deriving DecidableEq, Repr

/-- Host-supplied inputs of one `_wrapped_smelter()` call: the configured
beetle serial, whether `Mobiles.FindBySerial` finds it, its distance,
and the outcomes of the first and (if reached) the retried
`_smelter_run()` invocation (`none` = returns normally). -/
structure SmeltEnv where
  beetleSerial : Nat
  beetleFound : Bool
  distance : Nat
  firstRun : Option PyExc
  secondRun : Option PyExc
deriving DecidableEq, Repr

/-- The early return guard of `_wrapped_smelter`: a configured, found
beetle more than 18 tiles away. -/
def smelterEarlyReturn (env : SmeltEnv) : Bool :=
  decide (env.beetleSerial ≠ 0) && env.beetleFound && decide (18 < env.distance)

/-- Wrapper `_wrapped_smelter` (lines 125–140): the first helper
invocation runs inside `try`; a `TypeError` whose text mentions
`'List[Int32]'` normalizes the lists and calls the helper again — from
inside the `except TypeError` handler, so an exception of that second
call leaves the function; every other exception of the first call is
reported as a message and suppressed.  `Except.ok` is a normal return,
`Except.error e` is a propagated exception. -/
def wrappedSmelter (env : SmeltEnv) : Except PyExc Unit :=
  if smelterEarlyReturn env then Except.ok ()
  else
    match env.firstRun with
    | none => Except.ok ()
    | some (PyExc.typeError true) =>
      match env.secondRun with
      | none => Except.ok ()
      | some e => Except.error e
    | some (PyExc.typeError false) => Except.ok ()
    | some PyExc.otherError => Except.ok ()

/-! Concrete fixtures used by witnesses and counterexamples. -/

/-- Journal snapshot of a line-of-sight failure. -/
def losJournal : Journal := { Journal.empty with noLineOfSight := true }

/-- Journal snapshot of a successful dig. -/
def successJournal : Journal := { Journal.empty with digSome := true }

/-- Journal snapshot of a depleted spot. -/
def noMetalJournal : Journal := { Journal.empty with noMetal := true }

/-- MineOnce inputs: tool in hand, line-of-sight failure observed. -/
def losEnv : MineEnv := ⟨true, losJournal, false⟩

/-- MineOnce inputs: tool in hand, successful dig observed. -/
def successEnv : MineEnv := ⟨true, successJournal, false⟩

/-- MineOnce inputs: tool in hand, depletion text observed. -/
def noMetalEnv : MineEnv := ⟨true, noMetalJournal, false⟩

/-- MineOnce inputs: tool in hand, poll timeout with no matching text. -/
def timeoutEnv : MineEnv := ⟨true, Journal.empty, true⟩

/-- Fresh script state: counter zero, time zero, no timers. -/
def st0 : MinerState := ⟨0, 0, fun _ => none⟩

/-- State holding one unexpired cooldown timer, keyed by cell (1, 2). -/
def stTimer : MinerState :=
  ⟨0, 0, fun k => if k = coordKey 1 2 then some 5 else none⟩

/-- A first sample ore spot. -/
def spotA : OreSpot := ⟨100, 200, 0, 0x053E⟩

/-- A second sample ore spot at different coordinates. -/
def spotB : OreSpot := ⟨300, 400, 0, 0x053E⟩

/-- State after one line-of-sight failure at `spotA` from `st0`. -/
def stA1 : MinerState := (MineOnce spotA losEnv st0).2

/-- State after two consecutive line-of-sight failures at `spotA`. -/
def stA2 : MinerState := (MineOnce spotA losEnv stA1).2

/-- State after three consecutive line-of-sight failures at `spotA`. -/
def stA3 : MinerState := (MineOnce spotA losEnv stA2).2

/-- A static map with a single minable tile at cell (1, 2). -/
def statics0 : Int → Int → List TileInfo := fun x y =>
  if x = 1 ∧ y = 2 then [⟨0x053E, 0⟩] else []

/-- Loop iteration whose `MineOnce` finds no usable tool. -/
def iterNoPick : LoopIter := ⟨0, 500, true, [], ⟨false, Journal.empty, true⟩⟩

/-- Loop iteration at critical weight with a failed offload and one ore
item in the backpack. -/
def iterCrit : LoopIter := ⟨995, 1000, false, [⟨0x19B9, 7⟩], successEnv⟩

/-- Loop iteration at low weight with a successful dig. -/
def iterOk : LoopIter := ⟨0, 1000, true, [], successEnv⟩

/-- A beetle pack whose `Weight` attribute already equals the 400-stone maximum. -/
def fullPack : BeetlePack := ⟨0x5000, some 400, []⟩

/-- A beetle mobile exposing `fullPack` through its `Backpack` attribute. -/
def beetleFull : BeetleMobile := ⟨some fullPack, none, none⟩

/-- Transfer inputs: one raw-ore item, every host lookup and move succeeds. -/
def transferEnv0 : TransferEnv := ⟨[⟨0x19B9, 1001⟩], fun _ => true, fun _ => true⟩

/-- Smelter-call inputs: beetle not found nearby, helper raises a
`'List[Int32]'` `TypeError` on both the first and the retried call. -/
def smeltFailTwice : SmeltEnv :=
  ⟨0x002340B0, false, 0, some (PyExc.typeError true), some (PyExc.typeError true)⟩

/-- Three unsorted spots on the x-axis. -/
def spots1 : List OreSpot := [⟨3, 0, 0, 1⟩, ⟨1, 0, 0, 1⟩, ⟨2, 0, 0, 1⟩]

end Mining

namespace LedTest

/-- An exception of the socket connect call as distinguished by
`try_connect`'s handler: `socket.timeout`, another `OSError`, or an
exception outside that tuple (for example a `TypeError` from a malformed
address). -/
inductive NetExc where
  | socketTimeout : NetExc
  | osError : NetExc
  | otherExc : NetExc
deriving DecidableEq, Repr

/-- Connectivity probe `try_connect` (src/led_connection_test.py lines
21–31): the connect call's outcome is the oracle; `except
(socket.timeout, OSError)` maps those two to `False`, `finally` closes
the socket on every path (second component `true`), and any other
exception propagates after the close. -/
def try_connect (connectResult : Except NetExc Unit) : Except NetExc Bool × Bool :=
  let body : Except NetExc Bool :=
    match connectResult with
    | Except.ok _ => Except.ok true
    | Except.error NetExc.socketTimeout => Except.ok false
    | Except.error NetExc.osError => Except.ok false
    | Except.error NetExc.otherExc => Except.error NetExc.otherExc
  (body, true)

end LedTest

namespace Mining

/-- Every spot produced by the per-cell inner loops carries the scanned
cell's coordinates and was only added with no running cooldown timer. -/
lemma cellSpots_mem {tCheck : String → Bool} {tiles : List TileInfo} {x y : Int}
    {s : OreSpot} (hs : s ∈ cellSpots tCheck tiles x y) :
    s.x = x ∧ s.y = y ∧ tCheck (coordKey x y) = false := by
  simp only [cellSpots, List.mem_flatMap, List.mem_filterMap] at hs
  obtain ⟨tile, -, staticid, -, hif⟩ := hs
  split at hif
  case isTrue h => cases hif; exact ⟨rfl, rfl, h.2⟩
  case isFalse => cases hif

/-- Membership in the sorted candidate list is membership in the input. -/
lemma sortSpots_mem {px py : Int} {l : List OreSpot} {s : OreSpot} :
    s ∈ sortSpots px py l ↔ s ∈ l :=
  List.mem_insertionSort _

/-- The sorted candidate list is pairwise non-decreasing in squared
distance to the player. -/
lemma sortSpots_pairwise (px py : Int) (l : List OreSpot) :
    (sortSpots px py l).Sorted (fun s t => dist2 px py s ≤ dist2 px py t) := by
  haveI : IsTotal OreSpot (fun s t => dist2 px py s ≤ dist2 px py t) :=
    ⟨fun a b => Int.le_total _ _⟩
  haveI : IsTrans OreSpot (fun s t => dist2 px py s ≤ dist2 px py t) :=
    ⟨fun _ _ _ hab hbc => le_trans hab hbc⟩
  exact List.sorted_insertionSort _ _

/-- The sorted candidate list is pairwise non-decreasing in Euclidean
distance to the player (square root of the squared distance). -/
lemma sortSpots_sorted_sqrt (px py : Int) (l : List OreSpot) :
    (sortSpots px py l).Sorted
      (fun s t => Real.sqrt ((dist2 px py s : ℝ)) ≤ Real.sqrt ((dist2 px py t : ℝ))) :=
  (sortSpots_pairwise px py l).imp
    (fun hab => Real.sqrt_le_sqrt (by exact_mod_cast hab))

/-- C1: during `ScanStatic`, a map cell whose coordinate-keyed cooldown
timer exists and has not yet expired contributes no candidate, and —
starting from a candidate list already free of active cooldowns, as the
main loop's empty list is — every candidate in `oreSpots` after the scan
has no active cooldown entry. -/
theorem scanStatic_excludes_cooldown (statics : Int → Int → List TileInfo)
    (st : MinerState) (px py : Int) (spots0 : List OreSpot)
    (h0 : ∀ s ∈ spots0, timerCheck st (coordKey s.x s.y) = false) :
    (∀ x y e, st.timers (coordKey x y) = some e → st.now < e →
      ∀ tiles, cellSpots (timerCheck st) tiles x y = []) ∧
    ∀ s ∈ ScanStatic statics (timerCheck st) px py spots0,
      timerCheck st (coordKey s.x s.y) = false := by
  constructor
  · intro x y e hsome hlt tiles
    have hxy : timerCheck st (coordKey x y) = true := by
      simp [timerCheck, hsome, hlt]
    simp [cellSpots, hxy]
  · intro s hs
    have hs2 : s ∈ spots0 ++ _ := sortSpots_mem.mp hs
    rcases List.mem_append.mp hs2 with h | h
    · exact h0 s h
    · simp only [List.mem_flatMap] at h
      obtain ⟨i, -, j, -, hcell⟩ := h
      obtain ⟨hx, hy, hfalse⟩ := cellSpots_mem hcell
      rw [hx, hy]
      exact hfalse

/-- Witness for C1: the cell under the running cooldown of `stTimer`
yields nothing, and the spot found at the free cell (1, 2) of `statics0`
has no active cooldown in the timerless state `st0`. -/
theorem scanStatic_excludes_cooldown_witness :
    cellSpots (timerCheck stTimer) [⟨0x053E, 0⟩] 1 2 = [] ∧
    timerCheck st0 (coordKey 1 2) = false :=
  ⟨(scanStatic_excludes_cooldown statics0 stTimer 0 0 [] (by simp)).1 1 2 5 rfl
      (by decide) [⟨0x053E, 0⟩],
   (scanStatic_excludes_cooldown statics0 st0 0 0 [] (by simp)).2
      ⟨1, 2, 0, 0x053E⟩
      (sortSpots_mem.mpr (List.mem_append_right _ (by decide)))⟩

/-- C7: the candidate list produced by the discovery scan, and the list
produced by removing the visited head and re-sorting, are sorted in
non-decreasing Euclidean distance to the player's position, and the head
of such a list is always a nearest remaining candidate. -/
theorem candidates_sorted_by_distance (statics : Int → Int → List TileInfo)
    (tCheck : String → Bool) (px py : Int) (spots0 spots : List OreSpot) :
    ((ScanStatic statics tCheck px py spots0).Sorted
      (fun s t => Real.sqrt ((dist2 px py s : ℝ)) ≤ Real.sqrt ((dist2 px py t : ℝ)))) ∧
    ((removeVisited px py spots).Sorted
      (fun s t => Real.sqrt ((dist2 px py s : ℝ)) ≤ Real.sqrt ((dist2 px py t : ℝ)))) ∧
    (∀ h rest, ScanStatic statics tCheck px py spots0 = h :: rest →
      ∀ s ∈ rest, Real.sqrt ((dist2 px py h : ℝ)) ≤ Real.sqrt ((dist2 px py s : ℝ))) ∧
    (∀ h rest, removeVisited px py spots = h :: rest →
      ∀ s ∈ rest, Real.sqrt ((dist2 px py h : ℝ)) ≤ Real.sqrt ((dist2 px py s : ℝ))) := by
  refine ⟨sortSpots_sorted_sqrt px py _, sortSpots_sorted_sqrt px py _, ?_, ?_⟩
  · intro h rest heq s hs
    have hp := sortSpots_sorted_sqrt px py
      (spots0 ++ (List.range (2 * scanRadius + 1)).flatMap (fun i =>
        (List.range (2 * scanRadius + 1)).flatMap (fun j =>
          cellSpots tCheck (statics (px - (scanRadius : Int) + i) (py - (scanRadius : Int) + j))
            (px - (scanRadius : Int) + i) (py - (scanRadius : Int) + j))))
    have hp2 : (ScanStatic statics tCheck px py spots0).Sorted
        (fun s t => Real.sqrt ((dist2 px py s : ℝ)) ≤ Real.sqrt ((dist2 px py t : ℝ))) := hp
    rw [heq] at hp2
    exact (List.sorted_cons.mp hp2).1 s hs
  · intro h rest heq s hs
    have hp := sortSpots_sorted_sqrt px py spots.tail
    have hp2 : (removeVisited px py spots).Sorted
        (fun s t => Real.sqrt ((dist2 px py s : ℝ)) ≤ Real.sqrt ((dist2 px py t : ℝ))) := hp
    rw [heq] at hp2
    exact (List.sorted_cons.mp hp2).1 s hs

/-- Witness for C7: on the concrete unsorted list `spots1`, removing the
visited head and re-sorting puts the nearest candidate first. -/
theorem candidates_sorted_by_distance_witness :
    Real.sqrt ((dist2 0 0 ⟨1, 0, 0, 1⟩ : ℝ)) ≤ Real.sqrt ((dist2 0 0 ⟨2, 0, 0, 1⟩ : ℝ)) :=
  (candidates_sorted_by_distance statics0 (fun _ => false) 0 0 [] spots1).2.2.2
    ⟨1, 0, 0, 1⟩ [⟨2, 0, 0, 1⟩] (by decide) ⟨2, 0, 0, 1⟩ (by decide)

/-- Counterexample for C2: starting from a fresh counter, the third
consecutive line-of-sight failure at `spotA` still returns `True` and
creates no cooldown (depletion needs a fourth failure, because the
incremented counter is compared with `> 3`); a success does not reset
the counter; and the counter survives a change of location, so the very
first line-of-sight failure at `spotB` marks that spot depleted. -/
theorem mineOnce_three_failures_cex :
    (MineOnce spotA losEnv st0).1 = MineResult.cont true ∧
    (MineOnce spotA losEnv stA1).1 = MineResult.cont true ∧
    (MineOnce spotA losEnv stA2).1 = MineResult.cont true ∧
    timerCheck stA3 (coordKey spotA.x spotA.y) = false ∧
    (MineOnce spotA successEnv stA1).2.blockCount = 1 ∧
    stA3.blockCount = 3 ∧
    (MineOnce spotB losEnv stA3).1 = MineResult.cont false ∧
    timerCheck (MineOnce spotB losEnv stA3).2 (coordKey spotB.x spotB.y) = true := by
  decide

/-- C2 (amended): a line-of-sight or `'can not mine'` failure increments
the global `blockCount`; the location is marked depleted (cooldown
created, `False` returned) exactly when the incremented counter exceeds
3 — i.e. on the fourth counted failure since the counter last reset —
and the counter is reset only by that depletion marking, while any
outcome of a different kind leaves it unchanged (so neither a success
nor a change of location restarts it). -/
theorem mineOnce_block_counter (spot : OreSpot) (env : MineEnv) (st : MinerState)
    (hp : env.hasPickaxe = true)
    (hlos : env.journal.canNotMine = true ∨ env.journal.noLineOfSight = true)
    (hr : env.journal.cantDigRiding = false)
    (hm : env.journal.noMetal = false)
    (hw : env.journal.wornOut = false) :
    (3 ≤ st.blockCount →
      MineOnce spot env st
        = (MineResult.cont false, mineCooldown { st with blockCount := 0 } spot)) ∧
    (st.blockCount < 3 →
      MineOnce spot env st
        = (MineResult.cont true, { st with blockCount := st.blockCount + 1 })) ∧
    (∀ env2 : MineEnv, env2.journal.canNotMine = false →
      env2.journal.noLineOfSight = false →
      (MineOnce spot env2 st).2.blockCount = st.blockCount) := by
  have hcond : (env.journal.canNotMine || env.journal.noLineOfSight) = true := by
    rcases hlos with h | h <;> simp [h]
  refine ⟨?_, ?_, ?_⟩
  · intro h3
    simp only [MineOnce, hp, hr, hm, hw, hcond]
    norm_num
    omega
  · intro h3
    simp only [MineOnce, hp, hr, hm, hw, hcond]
    norm_num
    omega
  · intro env2 hcnm hnls
    by_cases hpx : env2.hasPickaxe = false
    · simp [MineOnce, hpx]
    · simp only [MineOnce, if_neg hpx, hcnm, hnls, Bool.or_self, mineCooldown, timerCreate]
      split_ifs <;> simp_all

/-- Witness for C2 (amended): after three counted failures the fourth
marks `spotA` depleted and resets the counter; from a fresh counter a
failure just increments; and a successful dig leaves the counter as is. -/
theorem mineOnce_block_counter_witness :
    MineOnce spotA losEnv stA3
      = (MineResult.cont false, mineCooldown { stA3 with blockCount := 0 } spotA) ∧
    MineOnce spotA losEnv st0
      = (MineResult.cont true, { st0 with blockCount := st0.blockCount + 1 }) ∧
    (MineOnce spotA successEnv st0).2.blockCount = st0.blockCount :=
  ⟨(mineOnce_block_counter spotA losEnv stA3 rfl (Or.inr rfl) rfl rfl rfl).1 (by decide),
   (mineOnce_block_counter spotA losEnv st0 rfl (Or.inr rfl) rfl rfl rfl).2.1 (by decide),
   (mineOnce_block_counter spotA losEnv st0 rfl (Or.inr rfl) rfl rfl rfl).2.2
     successEnv rfl rfl⟩

/-- C5: observing the depletion text (with the higher-priority mounted
check not firing) and timing out with no matching text are handled
identically — both add the location's coordinate key to the cooldown set
expiring `oreCooldown` ms from now and return `False`. -/
theorem depletion_timeout_identical (spot : OreSpot) (st : MinerState)
    (env1 env2 : MineEnv)
    (hp1 : env1.hasPickaxe = true)
    (hr1 : env1.journal.cantDigRiding = false)
    (hm1 : env1.journal.noMetal = true)
    (hp2 : env2.hasPickaxe = true)
    (hj2 : env2.journal = Journal.empty)
    (ht2 : env2.mineTimerExpired = true) :
    MineOnce spot env1 st = (MineResult.cont false, mineCooldown st spot) ∧
    MineOnce spot env2 st = (MineResult.cont false, mineCooldown st spot) ∧
    (mineCooldown st spot).timers (coordKey spot.x spot.y) = some (st.now + oreCooldown) ∧
    timerCheck (mineCooldown st spot) (coordKey spot.x spot.y) = true := by
  refine ⟨?_, ?_, ?_, ?_⟩
  · simp [MineOnce, hp1, hr1, hm1]
  · simp [MineOnce, hp2, hj2, ht2, Journal.empty]
  · simp [mineCooldown, timerCreate]
  · simp [timerCheck, mineCooldown, timerCreate, oreCooldown]

/-- Witness for C5 at the fixture spot and fresh state, with a depletion
journal on one side and a bare timeout on the other. -/
theorem depletion_timeout_identical_witness :
    MineOnce spotA noMetalEnv st0 = (MineResult.cont false, mineCooldown st0 spotA) ∧
    MineOnce spotA timeoutEnv st0 = (MineResult.cont false, mineCooldown st0 spotA) ∧
    (mineCooldown st0 spotA).timers (coordKey spotA.x spotA.y) = some (st0.now + oreCooldown) ∧
    timerCheck (mineCooldown st0 spotA) (coordKey spotA.x spotA.y) = true :=
  depletion_timeout_identical spotA st0 noMetalEnv timeoutEnv rfl rfl rfl rfl rfl rfl

/-- Stop is reached in `MineOnce` exactly when no usable mining tool is
available; every journal outcome with a tool in hand returns normally. -/
lemma mineOnce_halt_iff (spot : OreSpot) (env : MineEnv) (st : MinerState) :
    (MineOnce spot env st).1 = MineResult.halt ↔ env.hasPickaxe = false := by
  cases hpx : env.hasPickaxe
  · simp [MineOnce, hpx]
  · simp only [MineOnce, hpx]
    norm_num
    split_ifs <;> simp

/-- A loop body can only report `halted` through its `MineOnce` call, so
the iteration's environment had no usable tool. -/
lemma loopBody_halted_hasPickaxe {smeltActive : Bool} {spot : OreSpot}
    {it : LoopIter} {attempts : Nat} {st : MinerState} {acts : List Action}
    (h : loopBody smeltActive spot it attempts st = BodyOut.halted acts) :
    it.mineEnv.hasPickaxe = false := by
  rcases hr : MineOnce spot it.mineEnv st with ⟨r, st2⟩
  cases r with
  | halt => exact (mineOnce_halt_iff spot it.mineEnv st).1 (by rw [hr])
  | cont s =>
    exfalso
    simp only [loopBody, hr] at h
    split_ifs at h

/-- Invariant of the extraction loop: if `attempts` enters at most
`maxAttempts`, it never leaves above `maxAttempts`. -/
lemma mineLoopRun_le (smeltActive : Bool) (spot : OreSpot) :
    ∀ (iters : List LoopIter) (a : Nat) (st : MinerState), a ≤ maxAttempts →
      finalAttempts (mineLoopRun smeltActive spot iters a st) ≤ maxAttempts := by
  intro iters
  induction iters with
  | nil => intro a st h; simpa [mineLoopRun, finalAttempts] using h
  | cons it rest ih =>
    intro a st h
    by_cases hlt : a < maxAttempts
    · simp only [mineLoopRun, if_pos hlt]
      rcases hb : loopBody smeltActive spot it a st with acts | acts | ⟨s, acts, st2⟩
      · simpa [finalAttempts] using h
      · simp [finalAttempts]
      · cases s
        · simp only [Bool.false_eq_true, if_false, finalAttempts]
          omega
        · exact ih 0 st2 (by omega)
    · simp only [mineLoopRun, if_neg hlt]
      simpa [finalAttempts] using h

/-- C6: the per-location attempt counter of `MineSpotUntilDepleted` never
exceeds `maxAttempts = 20`, the loop guard exits as soon as `attempts`
reaches that cap, and a successful extraction continues the loop with
the counter reset to zero. -/
theorem attempts_never_exceed_max (smeltActive : Bool) (spot : OreSpot) :
    (∀ (iters : List LoopIter) (st : MinerState),
      finalAttempts (mineLoopRun smeltActive spot iters 0 st) ≤ maxAttempts) ∧
    (∀ (iters : List LoopIter) (a : Nat) (st : MinerState), maxAttempts ≤ a →
      mineLoopRun smeltActive spot iters a st = RunOutcome.finished a st) ∧
    (∀ (it : LoopIter) (rest : List LoopIter) (a : Nat) (st : MinerState)
      (acts : List Action) (st2 : MinerState), a < maxAttempts →
      loopBody smeltActive spot it a st = BodyOut.next true acts st2 →
      mineLoopRun smeltActive spot (it :: rest) a st
        = mineLoopRun smeltActive spot rest 0 st2) := by
  refine ⟨fun iters st => mineLoopRun_le smeltActive spot iters 0 st (by omega), ?_, ?_⟩
  · intro iters a st h
    cases iters with
    | nil => rfl
    | cons it rest => simp [mineLoopRun, Nat.not_lt.2 h]
  · intro it rest a st acts st2 hlt hbody
    simp only [mineLoopRun, if_pos hlt, hbody]
    simp

/-- Witness for C6: a concrete successful iteration keeps the counter at
zero and within the cap, and a run entered at 25 exits immediately. -/
theorem attempts_never_exceed_max_witness :
    finalAttempts (mineLoopRun true spotA [iterOk] 0 st0) ≤ maxAttempts ∧
    mineLoopRun true spotA [iterOk] 25 st0 = RunOutcome.finished 25 st0 ∧
    mineLoopRun true spotA [iterOk, iterOk] 0 st0 = mineLoopRun true spotA [iterOk] 0 st0 :=
  ⟨(attempts_never_exceed_max true spotA).1 [iterOk] st0,
   (attempts_never_exceed_max true spotA).2.1 [iterOk] 25 st0 (by decide),
   (attempts_never_exceed_max true spotA).2.2 iterOk [iterOk] 0 st0
     [Action.smelt, Action.mineAttempt] st0 (by decide) rfl⟩

/-- C8: within the embedded controller the only halting outcomes are the
fatal preconditions — `MineOnce` halts exactly when no usable mining
tool is available, the startup gate halts exactly when the mining skill
is below 40 — and a halted extraction-loop run always contains an
iteration without a usable tool; every other outcome returns control to
the loop. -/
theorem fatal_outcomes_only (spot : OreSpot) :
    (∀ (env : MineEnv) (st : MinerState),
      (MineOnce spot env st).1 = MineResult.halt ↔ env.hasPickaxe = false) ∧
    (∀ skill : Int, skillTooLow skill = true ↔ skill < 40) ∧
    (∀ (smeltActive : Bool) (iters : List LoopIter) (a : Nat) (st : MinerState),
      mineLoopRun smeltActive spot iters a st = RunOutcome.halted →
      ∃ it ∈ iters, it.mineEnv.hasPickaxe = false) := by
  refine ⟨mineOnce_halt_iff spot, fun skill => by simp [skillTooLow], ?_⟩
  intro smeltActive iters
  induction iters with
  | nil =>
    intro a st h
    simp [mineLoopRun] at h
  | cons it rest ih =>
    intro a st h
    by_cases hlt : a < maxAttempts
    · simp only [mineLoopRun, if_pos hlt] at h
      rcases hb : loopBody smeltActive spot it a st with acts | acts | ⟨s, acts, st2⟩ <;>
        rw [hb] at h
      · simp at h
      · exact ⟨it, List.mem_cons_self it rest, loopBody_halted_hasPickaxe hb⟩
      · cases s
        · simp at h
        · simp only [if_pos] at h
          obtain ⟨it2, hmem, hpx⟩ := ih 0 st2 (by simpa using h)
          exact ⟨it2, List.mem_cons_of_mem _ hmem, hpx⟩
    · simp only [mineLoopRun, if_neg hlt] at h
      simp at h

/-- Witness for C8: the no-tool iteration halts the concrete run, and the
halt/skill characterizations hold at concrete inputs. -/
theorem fatal_outcomes_only_witness :
    ((MineOnce spotA iterNoPick.mineEnv st0).1 = MineResult.halt
      ↔ iterNoPick.mineEnv.hasPickaxe = false) ∧
    (skillTooLow 39 = true ↔ (39 : Int) < 40) ∧
    ∃ it ∈ [iterNoPick], it.mineEnv.hasPickaxe = false :=
  ⟨(fatal_outcomes_only spotA).1 iterNoPick.mineEnv st0,
   (fatal_outcomes_only spotA).2.1 39,
   (fatal_outcomes_only spotA).2.2 true [iterNoPick] 0 st0 rfl⟩

/-- C9: when the carried weight is within 10 of the maximum and the
offload to the companion failed, the loop body drops the first
resource-tagged backpack item on the ground, then invokes the smelter
trigger, and breaks out without issuing another extraction attempt. -/
theorem overweight_drop_then_smelt (spot : OreSpot) (it : LoopIter) (a : Nat)
    (st : MinerState)
    (hw : it.maxWeight - 10 ≤ it.weight)
    (hbeetle : it.moveToBeetleOk = false)
    (hres : ∃ x ∈ it.backpack, x.itemID ∈ resourceIDs) :
    ∃ itm, it.backpack.find? (fun i => decide (i.itemID ∈ resourceIDs)) = some itm ∧
      itm.itemID ∈ resourceIDs ∧
      loopBody true spot it a st
        = BodyOut.brk [Action.smelt, Action.offloadAttempt,
            Action.dropGround itm.itemID, Action.smelt] ∧
      Action.mineAttempt ∉ [Action.smelt, Action.offloadAttempt,
            Action.dropGround itm.itemID, Action.smelt] := by
  obtain ⟨x, hxmem, hxid⟩ := hres
  have hfind : (it.backpack.find? (fun i => decide (i.itemID ∈ resourceIDs))).isSome := by
    rw [List.find?_isSome]
    exact ⟨x, hxmem, by simpa using hxid⟩
  obtain ⟨itm, hitm⟩ := Option.isSome_iff_exists.mp hfind
  have h1 : it.maxWeight - 400 - 40 ≤ it.weight := by omega
  refine ⟨itm, hitm, ?_, ?_, by simp⟩
  · have := List.find?_some hitm
    simpa using this
  · simp [loopBody, hbeetle, h1, hw, hitm]

/-- Witness for C9 at the concrete critical-weight iteration `iterCrit`. -/
theorem overweight_drop_then_smelt_witness :
    ∃ itm, iterCrit.backpack.find? (fun i => decide (i.itemID ∈ resourceIDs)) = some itm ∧
      itm.itemID ∈ resourceIDs ∧
      loopBody true spotA iterCrit 0 st0
        = BodyOut.brk [Action.smelt, Action.offloadAttempt,
            Action.dropGround itm.itemID, Action.smelt] ∧
      Action.mineAttempt ∉ [Action.smelt, Action.offloadAttempt,
            Action.dropGround itm.itemID, Action.smelt] :=
  overweight_drop_then_smelt spotA iterCrit 0 st0 (by decide) rfl (by decide)

/-- Counterexample for C3: with the beetle pack already at the 400-stone
maximum the capacity estimate refuses even the default minimal
requirement of 10, yet the transfer routine still issues the move of the
ore item and reports success — no offload path of the script consults
`BeetleHasCapacity` (the function has no caller). -/
theorem offload_without_capacity_cex :
    BeetleHasCapacity (some beetleFull) 10 = false ∧
    TransferItemsToBeetle (some beetleFull) transferEnv0 = (true, [1001]) := by
  decide

/-- C3 (amended): the capacity estimate `BeetleHasCapacity` exists but is
never consulted: whenever the beetle pack resolves and the backpack
holds a movable resource-tagged item, `TransferItemsToBeetle` issues the
moves and reports success even when the estimated remaining capacity is
below the required minimum, and the issued transfer does not depend on
the beetle pack's contents at all. -/
theorem transfer_ignores_capacity (mob : BeetleMobile) (env : TransferEnv) (req : Int)
    (hp : (findBeetlePack mob).isSome)
    (hcap : BeetleHasCapacity (some mob) req = false)
    (hx : ∃ x ∈ env.playerBackpack, x.itemID ∈ resourceIDs ∧
      env.preExists x.serial = true ∧ env.moveSucceeds x.serial = true) :
    (TransferItemsToBeetle (some mob) env).1 = true ∧
    (TransferItemsToBeetle (some mob) env).2 ≠ [] ∧
    (∀ mob2 : BeetleMobile, (findBeetlePack mob2).isSome →
      TransferItemsToBeetle (some mob2) env = TransferItemsToBeetle (some mob) env) := by
  obtain ⟨p, hp2⟩ := Option.isSome_iff_exists.mp hp
  obtain ⟨x, hxmem, hxid, hxpre, hxmv⟩ := hx
  have hxore : x ∈ env.playerBackpack.filter (fun it => decide (it.itemID ∈ resourceIDs)) :=
    List.mem_filter.mpr ⟨hxmem, by simpa using hxid⟩
  have hne : (env.playerBackpack.filter
      (fun it => decide (it.itemID ∈ resourceIDs))).isEmpty = false := by
    rcases hemp : (env.playerBackpack.filter
        (fun it => decide (it.itemID ∈ resourceIDs))).isEmpty with _ | _
    · exact hemp
    · rw [List.isEmpty_iff] at hemp
      rw [hemp] at hxore
      cases hxore
  have hxpf : x ∈ (env.playerBackpack.filter
      (fun it => decide (it.itemID ∈ resourceIDs))).filter
      (fun it => env.preExists it.serial) :=
    List.mem_filter.mpr ⟨hxore, hxpre⟩
  have hser : x.serial ∈ ((env.playerBackpack.filter
      (fun it => decide (it.itemID ∈ resourceIDs))).filter
      (fun it => env.preExists it.serial)).map (fun it => it.serial) :=
    List.mem_map.mpr ⟨x, hxpf, rfl⟩
  have hmv : x.serial ∈ (((env.playerBackpack.filter
      (fun it => decide (it.itemID ∈ resourceIDs))).filter
      (fun it => env.preExists it.serial)).map (fun it => it.serial)).filter
      (fun s => env.moveSucceeds s) :=
    List.mem_filter.mpr ⟨hser, hxmv⟩
  refine ⟨?_, ?_, ?_⟩
  · simp only [TransferItemsToBeetle, hp2, hne, Bool.false_eq_true, if_false,
      decide_eq_true_eq]
    exact List.length_pos.mpr (List.ne_nil_of_mem hmv)
  · simp only [TransferItemsToBeetle, hp2, hne, Bool.false_eq_true, if_false]
    exact List.ne_nil_of_mem hser
  · intro mob2 hp3
    obtain ⟨p2, hp4⟩ := Option.isSome_iff_exists.mp hp3
    simp only [TransferItemsToBeetle, hp2, hp4]

/-- Witness for C3 (amended) at the full beetle pack and the one-ore-item
backpack. -/
theorem transfer_ignores_capacity_witness :
    (TransferItemsToBeetle (some beetleFull) transferEnv0).1 = true ∧
    (TransferItemsToBeetle (some beetleFull) transferEnv0).2 ≠ [] ∧
    (∀ mob2 : BeetleMobile, (findBeetlePack mob2).isSome →
      TransferItemsToBeetle (some mob2) transferEnv0
        = TransferItemsToBeetle (some beetleFull) transferEnv0) :=
  transfer_ignores_capacity beetleFull transferEnv0 10 (by decide) (by decide)
    ⟨⟨0x19B9, 1001⟩, by decide, by decide, rfl, rfl⟩

/-- C4 (code bug): when the first helper invocation raises a
`'List[Int32]'` `TypeError` and the retried invocation raises again, the
exception leaves `_wrapped_smelter` — the retry runs inside the
`except TypeError` handler, outside any `try` — while the non-retry
exception paths are suppressed as the wrapper intends. -/
theorem wrappedSmelter_retry_propagates :
    wrappedSmelter smeltFailTwice = Except.error (PyExc.typeError true) ∧
    wrappedSmelter { smeltFailTwice with secondRun := some PyExc.otherError }
      = Except.error PyExc.otherError ∧
    wrappedSmelter { smeltFailTwice with firstRun := some PyExc.otherError }
      = Except.ok () ∧
    wrappedSmelter { smeltFailTwice with firstRun := some (PyExc.typeError false) }
      = Except.ok () :=
  ⟨rfl, rfl, rfl, rfl⟩

end Mining

namespace LedTest

/-- C10: `try_connect` closes the socket on every path, returns `True`
exactly when the connect succeeds within the timeout, returns `False`
when the connect raises `socket.timeout` or another `OSError`, and never
propagates either of those two exception kinds to its caller. -/
theorem try_connect_contract (r : Except NetExc Unit) :
    (try_connect r).2 = true ∧
    ((try_connect r).1 = Except.ok true ↔ r = Except.ok ()) ∧
    ((r = Except.error NetExc.socketTimeout ∨ r = Except.error NetExc.osError) →
      (try_connect r).1 = Except.ok false) ∧
    (try_connect r).1 ≠ Except.error NetExc.socketTimeout ∧
    (try_connect r).1 ≠ Except.error NetExc.osError := by
  rcases r with e | u
  · cases e
    case socketTimeout => refine ⟨rfl, ?_, ?_, ?_, ?_⟩ <;> simp [try_connect]
    case osError => refine ⟨rfl, ?_, ?_, ?_, ?_⟩ <;> simp [try_connect]
    case otherExc => refine ⟨rfl, ?_, ?_, ?_, ?_⟩ <;> simp [try_connect]
  · cases u
    refine ⟨rfl, ?_, ?_, ?_, ?_⟩ <;> simp [try_connect]

/-- Witness for C10: a timed-out connect yields `False` with the socket
closed. -/
theorem try_connect_contract_witness :
    (try_connect (Except.error NetExc.socketTimeout)).1 = Except.ok false ∧
    (try_connect (Except.error NetExc.socketTimeout)).2 = true :=
  ⟨(try_connect_contract (Except.error NetExc.socketTimeout)).2.2.1 (Or.inl rfl),
   (try_connect_contract (Except.error NetExc.socketTimeout)).1⟩

end LedTest
